import Mathlib

/-
Verification of the geometry-3d library (3D computational-geometry kernel:
vectors, segments, polygons, triangles, meshes, with epsilon-tolerant
predicates).

The JavaScript source is embedded shallowly:

  * Machine numbers are idealized as exact rationals for all code paths that
    use only field operations and comparisons.  The two places where the
    source calls Math.sqrt (vector length inside Triangle.contains and
    Triangle.intersect) are embedded over the reals with Real.sqrt further
    below.
  * JavaScript division can produce the non-finite values Infinity,
    -Infinity and NaN (for example 0/0 in the collinearity tests).  Those
    code paths are embedded with the type JSNum below, which models a
    JavaScript number that may be non-finite, with IEEE-754 comparison
    semantics (every comparison involving NaN is false).
  * The library is a factory parameterized by a global tolerance EPSILON
    (default 1e-8); all embedded operations take the tolerance as an
    explicit first argument, and EPSDEF is the default value.
-/

/-- EPSDEF is the default tolerance of the library (1.0e-8). -/
def EPSDEF : ℚ := 1 / 10 ^ 8

/-- Vec is the Vector class of vector.js: three coordinates. -/
structure Vec where
  x : ℚ
  y : ℚ
  z : ℚ
deriving DecidableEq, Repr

/-- Vector addition (vector.js add). -/
def Vec.add (v w : Vec) : Vec := ⟨v.x + w.x, v.y + w.y, v.z + w.z⟩

/-- Vector subtraction (vector.js subtract). -/
def Vec.sub (v w : Vec) : Vec := ⟨v.x - w.x, v.y - w.y, v.z - w.z⟩

/-- Scalar multiplication (vector.js scale). -/
def Vec.scale (factor : ℚ) (v : Vec) : Vec :=
  ⟨factor * v.x, factor * v.y, factor * v.z⟩

/-- Cross product (vector.js Vector.cross). -/
def Vec.cross (v w : Vec) : Vec :=
  ⟨v.y * w.z - v.z * w.y, -(v.x * w.z) + v.z * w.x, v.x * w.y - v.y * w.x⟩

/-- Dot product (vector.js Vector.dot). -/
def Vec.dot (v w : Vec) : ℚ := v.x * w.x + v.y * w.y + v.z * w.z

/-- Tolerance-based vector equality (vector.js equals): per-axis absolute
difference strictly below the tolerance. -/
def Vec.equalsb (eps : ℚ) (v w : Vec) : Bool :=
  decide (|v.x - w.x| < eps) && decide (|v.y - w.y| < eps) &&
    decide (|v.z - w.z| < eps)

instance : Inhabited Vec := ⟨⟨0, 0, 0⟩⟩

/-- Squared length of a vector (the lengthSquared helper of
line-intersect.js). -/
def Vec.lengthSquared (v : Vec) : ℚ := v.x ^ 2 + v.y ^ 2 + v.z ^ 2

/-- Determinant of the 3x3 matrix with columns c1 c2 c3
(matrix.js Matrix.fromColumns followed by determinant: the matrix stores
rows (c1.x c2.x c3.x), (c1.y c2.y c3.y), (c1.z c2.z c3.z) and the
determinant is the cofactor expansion of matrix.js). -/
def det3 (c1 c2 c3 : Vec) : ℚ :=
  c1.x * c2.y * c3.z + c2.x * c3.y * c1.z + c3.x * c1.y * c2.z
    - c3.x * c2.y * c1.z - c2.x * c1.y * c3.z - c1.x * c3.y * c2.z

/-- JSNum models the result of a JavaScript arithmetic expression whose
inputs are finite: either a finite number, or Infinity, -Infinity, or NaN.
The library performs divisions whose divisor can be zero (for example the
collinearity parameter t in line-intersect.js and Segment.collinear), and
the IEEE-754 outcome of the offending operations is modelled exactly. -/
inductive JSNum where
  | num (q : ℚ)
  | posInf
  | negInf
  | nan
deriving DecidableEq, Repr

/-- JavaScript division of two finite numbers: q / 0 is Infinity or
-Infinity for q nonzero, and 0 / 0 is NaN. -/
def jsDiv (a b : ℚ) : JSNum :=
  if b ≠ 0 then .num (a / b)
  else if a > 0 then .posInf
  else if a < 0 then .negInf
  else .nan

/-- Multiplication of a JSNum by a finite number (IEEE-754: Infinity times
zero is NaN, NaN propagates). -/
def JSNum.mulQ : JSNum → ℚ → JSNum
  | .num q, c => .num (q * c)
  | .posInf, c => if c > 0 then .posInf else if c < 0 then .negInf else .nan
  | .negInf, c => if c > 0 then .negInf else if c < 0 then .posInf else .nan
  | .nan, _ => .nan

/-- Subtraction of a JSNum from a finite number (IEEE-754). -/
def JSNum.qSub (a : ℚ) : JSNum → JSNum
  | .num q => .num (a - q)
  | .posInf => .negInf
  | .negInf => .posInf
  | .nan => .nan

/-- The test Math.abs(v) < c on a JSNum: false whenever v is non-finite
(the absolute value of NaN is NaN and of an infinity is Infinity, and both
comparisons are false for finite c). -/
def JSNum.absLt (v : JSNum) (c : ℚ) : Bool :=
  match v with
  | .num q => decide (|q| < c)
  | _ => false

/-- The test v >= c on a JSNum (IEEE-754: NaN >= c is false). -/
def JSNum.geQ (v : JSNum) (c : ℚ) : Bool :=
  match v with
  | .num q => decide (q ≥ c)
  | .posInf => true
  | _ => false

/-- The test c <= v on a JSNum (IEEE-754). -/
def JSNum.qLe (c : ℚ) (v : JSNum) : Bool :=
  match v with
  | .num q => decide (c ≤ q)
  | .posInf => true
  | _ => false

/-- The test v <= c on a JSNum (IEEE-754). -/
def JSNum.leQ (v : JSNum) (c : ℚ) : Bool :=
  match v with
  | .num q => decide (q ≤ c)
  | .negInf => true
  | _ => false

/-- The test v < w on two JSNums (IEEE-754: any comparison with NaN is
false). -/
def JSNum.ltJS : JSNum → JSNum → Bool
  | .num q, .num r => decide (q < r)
  | .num _, .posInf => true
  | .negInf, .num _ => true
  | .negInf, .posInf => true
  | _, _ => false

/-- Math.max of a finite number and a JSNum (NaN propagates). -/
def JSNum.maxQ (c : ℚ) : JSNum → JSNum
  | .num q => .num (max c q)
  | .posInf => .posInf
  | .negInf => .num c
  | .nan => .nan

/-- Math.min of a finite number and a JSNum (NaN propagates). -/
def JSNum.minQ (c : ℚ) : JSNum → JSNum
  | .num q => .num (min c q)
  | .posInf => .num c
  | .negInf => .negInf
  | .nan => .nan

/-- Extraction of the finite value of a JSNum; only applied below in
positions that are reachable only with finite values. -/
def JSNum.toQ : JSNum → ℚ
  | .num q => q
  | _ => 0

/-- Result of lineIntersect (util/line-intersect.js): the JavaScript
function returns null, a plain object with fields a and b (for parallel
collinear lines), or the intersection point Vector. -/
inductive LineIsect where
  | overlap (a b : Vec)
  | point (p : Vec)
deriving DecidableEq, Repr

/-- Embedding of lineIntersect of util/line-intersect.js.  The collinearity
parameter t is (a2.x - a1.x) / direction1.x, which in JavaScript is NaN or
an infinity when direction1.x is zero; JSNum reproduces that, and both
epsilon comparisons are then false. -/
def lineIntersect (eps : ℚ) (a1 b1 a2 b2 : Vec) : Option LineIsect :=
  let direction1 := b1.sub a1
  let direction2 := b2.sub a2
  let cross := Vec.cross direction1 direction2
  let crossLengthSquared := cross.lengthSquared
  if crossLengthSquared < eps then
    -- Lines are parallel.  Are they also co-linear?
    let t := jsDiv (a2.x - a1.x) direction1.x
    if (JSNum.qSub (a2.y - a1.y) (t.mulQ direction1.y)).absLt eps
        ∧ (JSNum.qSub (a2.z - a1.z) (t.mulQ direction1.z)).absLt eps then
      some (.overlap a1 b1)
    else
      none
  else
    let t1 := det3 (a2.sub a1) direction2 cross / crossLengthSquared
    let t2 := det3 (a2.sub a1) direction1 cross / crossLengthSquared
    let p1 := a1.add (direction1.scale t1)
    let p2 := a2.add (direction2.scale t2)
    if p1.equalsb eps p2 then some (.point p1) else none

/-- Seg is the Segment class of segment.js: an ordered pair of endpoints. -/
structure Seg where
  a : Vec
  b : Vec
deriving DecidableEq, Repr

/-- Direction of a segment (segment.js direction). -/
def Seg.direction (s : Seg) : Vec := s.b.sub s.a

/-- Result of Segment.intersect: null, a point, or an overlap Segment. -/
inductive SegIsect where
  | point (p : Vec)
  | seg (s : Seg)
deriving DecidableEq, Repr

/-- Embedding of Segment.intersect of segment.js.  The parameters s, t, t1
and t2 are divisions by a direction x-coordinate and may be non-finite in
JavaScript; they are JSNum values and all comparisons follow IEEE-754.  In
the branch that builds the overlap segment the guard can only be true when
t1 and t2 are finite (both are divisions by the same nonzero
direction.x), so the finite values are extracted there. -/
def Seg.intersect (eps : ℚ) (s o : Seg) : Option SegIsect :=
  match lineIntersect eps s.a s.b o.a o.b with
  | none => none
  | some (.point isect) =>
    -- They intersect in a point.  Make sure the point is contained in both
    -- segments.
    let v := isect.sub s.a
    let w := isect.sub o.a
    let sp := jsDiv v.x s.direction.x
    let tp := jsDiv w.x o.direction.x
    if JSNum.ltJS sp (.num 0) ∨ JSNum.ltJS (.num 1) sp
        ∨ JSNum.ltJS tp (.num 0) ∨ JSNum.ltJS (.num 1) tp then
      none
    else
      some (.point isect)
  | some (.overlap _ _) =>
    -- The lines are collinear.  See if the segments overlap.
    let t1 := jsDiv (o.a.x - s.a.x) s.direction.x
    let t2 := jsDiv (o.b.x - s.a.x) s.direction.x
    -- To make things easier sort t1 and t2 in ascending order.
    let tt := if JSNum.ltJS t2 t1 then (t2, t1) else (t1, t2)
    if (JSNum.qLe 0 tt.1 ∧ JSNum.leQ tt.1 1) ∨ (JSNum.qLe 0 tt.2 ∧ JSNum.leQ tt.2 1) then
      some (.seg ⟨s.a.add (s.direction.scale ((JSNum.maxQ 0 tt.1).toQ)),
                  s.a.add (s.direction.scale ((JSNum.minQ 1 tt.2).toQ))⟩)
    else
      none

/-- Embedding of Segment.collinear of segment.js.  Note that the source
tests the residuals with a one-sided comparison (residual >= EPSILON), not
with Math.abs. -/
def Seg.collinear (eps : ℚ) (s o : Seg) : Option (JSNum × JSNum) :=
  let direction := s.direction
  let t1 := jsDiv (o.a.x - s.a.x) direction.x
  if (JSNum.qSub (o.a.y - s.a.y) (t1.mulQ direction.y)).geQ eps
      ∨ (JSNum.qSub (o.a.z - s.a.z) (t1.mulQ direction.z)).geQ eps then
    none
  else
    let t2 := jsDiv (o.b.x - s.a.x) direction.x
    if (JSNum.qSub (o.b.y - s.a.y) (t2.mulQ direction.y)).geQ eps
        ∨ (JSNum.qSub (o.b.z - s.a.z) (t2.mulQ direction.z)).geQ eps then
      none
    else
      some (t1, t2)

/-- Math.sign on a rational (exact, no tolerance). -/
def jsSign (x : ℚ) : ℤ := if x < 0 then -1 else if 0 < x then 1 else 0

/-- The sign helper of util/sign.js: like Math.sign, but 0 whenever the
absolute value is below the tolerance. -/
def signEps (eps x : ℚ) : ℤ := if |x| < eps then 0 else jsSign x

/-- Embedding of winding of util/winding.js on 2D points (pairs of
coordinates; the first component is x, the second y).  The JavaScript
function returns undefined for fewer than three vertices, modelled by
none; otherwise -1 for counter-clockwise, +1 for clockwise, 0 for
collinear vertices (through the epsilon-tolerant sign). -/
def winding (eps : ℚ) (vertices : List (ℚ × ℚ)) : Option ℤ :=
  if vertices.length < 3 then none
  else
    let area := ((vertices.zip (vertices.rotate 1)).map
      (fun vv => (vv.2.1 - vv.1.1) * (vv.2.2 + vv.1.2))).sum
    some (signEps eps area)

/-- Embedding of the Polygon constructor of polygon.js: the vertex sequence
is stored as given, except that a clockwise-wound sequence (winding +1 on
the x-y coordinates) is reversed to make the winding counter-clockwise. -/
def mkPolygon (eps : ℚ) (vs : List Vec) : List Vec :=
  if winding eps (vs.map fun v => (v.x, v.y)) = some 1 then vs.reverse else vs

/-- Embedding of the Triangle constructor of triangle.js: if the
determinant of the three vertices as matrix columns is negative the second
and third vertex are swapped, and then the Polygon constructor runs on the
result. -/
def mkTriangle (eps : ℚ) (a b c : Vec) : List Vec :=
  if det3 a b c < 0 then mkPolygon eps [a, c, b] else mkPolygon eps [a, b, c]

/-- The Triangle constructor applied to a vertex array (triangle.js accepts
an array of all three vertices).  The source reads fields a[0], a[1], a[2];
lists of other lengths do not occur at the call sites below. -/
def mkTriangleL (eps : ℚ) (vs : List Vec) : List Vec :=
  match vs with
  | [a, b, c] => mkTriangle eps a b c
  | other => mkPolygon eps other

/-- The linePlaneIntersect helper of Triangle.cut.  The source assumes the
line P1-P2 is not parallel to the plane; at every call site below the
divisor is nonzero, so total rational division is faithful there. -/
def linePlaneIntersect (normal : Vec) (offset : ℚ) (P1 P2 : Vec) : Vec :=
  let a := (offset - normal.dot P1) / (normal.dot P2 - normal.dot P1)
  P1.add ((P2.sub P1).scale a)

/-- A Piece records whether a branch of Triangle.cut returns the receiver
object itself (the source statements returning this) or a newly constructed
polygon; pieceVal recovers the vertex list. -/
inductive Piece where
  | same
  | fresh (vs : List Vec)
deriving DecidableEq, Repr

/-- The vertex list denoted by a Piece, given the receiver triangle. -/
def pieceVal (T : List Vec) : Piece → List Vec
  | .same => T
  | .fresh vs => vs

/-- Embedding of Triangle.cut of triangle.js (cut by the plane of equation
dot normal X = offset), with the aliasing of the source made explicit
through Piece.  The result is none only in branches that are unreachable
for the guards of the source (where JavaScript would throw). -/
def Triangle.cutP (eps : ℚ) (T : List Vec) (normal : Vec) (offset : ℚ) :
    Option (Piece × Piece) :=
  let distances := T.map fun v => normal.dot v - offset
  if distances.all fun d => decide (|d| < eps) then
    -- The triangle is co-planar with the cut plane.
    some (.same, .same)
  else if distances.all fun d => decide (d > -eps) then
    -- Completely on the greater-or-equal side.
    some (.same, .fresh [])
  else if distances.all fun d => decide (d < eps) then
    -- Completely on the less-than-or-equal side.
    some (.fresh [], .same)
  else if (distances.any fun d => decide (d > -eps))
      && (distances.any fun d => decide (d < eps)) then
    -- The triangle crosses the cut plane.
    let pairs := T.map fun v => (v, normal.dot v - offset)
    let onv := (pairs.filter fun p => decide (|p.2| < eps)).getLast?
    let above := (pairs.filter fun p =>
      !decide (|p.2| < eps) && decide (p.2 > eps)).map Prod.fst
    let below := (pairs.filter fun p =>
      !decide (|p.2| < eps) && !decide (p.2 > eps)).map Prod.fst
    match onv with
    | some onp =>
      -- One vertex is right on the cut plane; above and below hold one
      -- vertex each (guaranteed by the guards above).
      match above, below with
      | [av], [bv] =>
        let P := linePlaneIntersect normal offset bv av
        some (.fresh (mkTriangle eps av P onp.1), .fresh (mkTriangle eps P bv onp.1))
      | _, _ => none
    | none =>
      -- One vertex on one side, two on the other: one triangle and one
      -- trapezoid.
      let triangular := if above.length = 1 then above else below
      let trapezoidal := if above.length = 2 then above else below
      match triangular with
      | t0 :: _ =>
        let intersections :=
          (trapezoidal.map fun v => linePlaneIntersect normal offset v t0).reverse
        let above2 := above ++ intersections
        let below2 := below ++ intersections
        some (.fresh (if above2.length > 3 then mkPolygon eps above2
                      else mkTriangleL eps above2),
              .fresh (if below2.length > 3 then mkPolygon eps below2
                      else mkTriangleL eps below2))
      | [] => none
  else none

/-- Value-level Triangle.cut: the pair of vertex lists for above and
below. -/
def Triangle.cut (eps : ℚ) (T : List Vec) (normal : Vec) (offset : ℚ) :
    Option (List Vec × List Vec) :=
  (Triangle.cutP eps T normal offset).map fun pq =>
    (pieceVal T pq.1, pieceVal T pq.2)

/-- A mesh face, as used by Mesh.split: a vertex list (the faces are
triangles, but split only iterates over their vertices). -/
abbrev Face := List Vec

/-- Whether two faces share at least one epsilon-equal vertex (the
predicate of the selection filter inside Mesh.split). -/
def sharesVertex (eps : ℚ) (rf sf : Face) : Bool :=
  rf.any fun vr => sf.any fun vs => Vec.equalsb eps vr vs

/-- The loop of Mesh.split of mesh.js.  One iteration: if no faces are
currently selected, the current sub-mesh is complete and a new one starts
from the first remaining face; the selected faces join the current
sub-mesh, are removed from the remaining faces, and the next selection is
every remaining face sharing a vertex with a face selected in this step.
The fuel argument is only a structural termination bound; every iteration
removes at least one remaining face, so the initial fuel of Mesh.split is
never exhausted (JavaScript identity of faces is modelled as structural
equality of their vertex lists). -/
def splitGo (eps : ℚ) : Nat → List Face → List Face → List Face →
    List (List Face) → List (List Face)
  | 0, _, _, current, finished => finished ++ [current]
  | _ + 1, [], _, current, finished => finished ++ [current]
  | fuel + 1, r :: rs, selected, current, finished =>
    let started := selected.isEmpty
    let selected0 := if started then [r] else selected
    let current0 := if started then [] else current
    let finished0 := if started then finished ++ [current] else finished
    let current1 := current0 ++ selected0
    let remaining1 := (r :: rs).filter fun f => !selected0.contains f
    let selected1 := remaining1.filter fun rf =>
      selected0.any fun sf => sharesVertex eps rf sf
    splitGo eps fuel remaining1 selected1 current1 finished0

/-- Embedding of Mesh.split of mesh.js: partition of the faces into
vertex-connected sub-meshes by iterative region growth. -/
def Mesh.split (eps : ℚ) (faces : List Face) : List (List Face) :=
  match faces with
  | [] => []
  | f :: fs => splitGo eps ((f :: fs).length + 1) (f :: fs) [f] [] []

/-- Embedding of Mesh.isContiguous of mesh.js, exactly as written in the
source: it returns split().length > 1. -/
def Mesh.isContiguous (eps : ℚ) (faces : List Face) : Bool :=
  decide ((Mesh.split eps faces).length > 1)

/-- Newell normal of a polygon (polygon.js get normal).  The source returns
undefined for fewer than three vertices; the claims below always carry a
length hypothesis, so the sum itself is used for every list. -/
def newellNormal (vs : List Vec) : Vec :=
  ((vs.zip (vs.rotate 1)).map fun uv =>
    Vec.mk ((uv.1.y - uv.2.y) * (uv.1.z + uv.2.z))
           ((uv.1.z - uv.2.z) * (uv.1.x + uv.2.x))
           ((uv.1.x - uv.2.x) * (uv.1.y + uv.2.y))).foldr Vec.add ⟨0, 0, 0⟩

/-- Coordinate axes, for the dominant-axis projection of polygon.js. -/
inductive Axis where
  | x
  | y
  | z
deriving DecidableEq, Repr

/-- Component of a vector along an axis. -/
def Vec.comp (v : Vec) : Axis → ℚ
  | .x => v.x
  | .y => v.y
  | .z => v.z

/-- The dominant axis of a normal vector: the reduce over the characters
x, y, z of polygon.js oper, keeping the axis of largest absolute component
(later axes win ties). -/
def domAxis (normal : Vec) : Axis :=
  let a1 : Axis := if |normal.y| ≥ |normal.x| then .y else .x
  if |normal.z| ≥ |normal.comp a1| then .z else a1

/-- The coplanarity check at the start of polygon.js oper, true when the
source throws the non-coplanar error.  The scale factor
normal[axis] / poly2.normal[axis] is a JavaScript division and may be
non-finite; the scaled vector comparison follows IEEE-754 through JSNum.
The vertices poly1[0] and poly2[0] are the list heads (the operands have
at least three vertices at every use below). -/
def operCheckFails (eps : ℚ) (p1 p2 : List Vec) : Bool :=
  let normal := newellNormal p1
  let n2 := newellNormal p2
  let axis := domAxis normal
  let factor := jsDiv (normal.comp axis) (n2.comp axis)
  let equalsScaled :=
    (JSNum.qSub normal.x (factor.mulQ n2.x)).absLt eps &&
    (JSNum.qSub normal.y (factor.mulQ n2.y)).absLt eps &&
    (JSNum.qSub normal.z (factor.mulQ n2.z)).absLt eps
  !equalsScaled ||
    decide (signEps eps (normal.dot (p1.headI) - normal.dot (p2.headI)) ≠ 0)

/-- A 2D linear ring as handed back by the external clipping collaborator
after the GeoJSON reshaping: a list of 2D points. -/
abbrev Ring2 := List (ℚ × ℚ)

/-- The 2D epsilon-equality helper eq of polygon.js oper. -/
def eq2 (eps : ℚ) (P Q : ℚ × ℚ) : Bool :=
  decide (|P.1 - Q.1| < eps) && decide (|P.2 - Q.2| < eps)

/-- Removal of a duplicated closing vertex from a ring (polygon.js oper:
if the first and the last vertex are equal, the last is dropped).  The
source would fail on an empty ring; empty rings do not occur. -/
def dedupRing (eps : ℚ) (ring : Ring2) : Ring2 :=
  match ring with
  | [] => []
  | p :: ps =>
    if eq2 eps p ((p :: ps).getLast (List.cons_ne_nil p ps)) then
      (p :: ps).dropLast
    else p :: ps

/-- The reshaping of the collaborator output in polygon.js oper: per
polygon, per ring, drop the duplicated closing vertex, then flatten the
polygons into one list of rings. -/
def reshape (eps : ℚ) (clip : List (List Ring2)) : List Ring2 :=
  (clip.map fun poly => poly.map (dedupRing eps)).flatten

/-- Outcome of a polygon boolean operation: one of the two raised errors,
or a normal return. -/
inductive OperOutcome where
  | nonCoplanarError
  | multiHoleError
  | ok (rings : List Ring2)
deriving DecidableEq, Repr

/-- Embedding of oper of polygon.js up to the multi-hole guard.  The 2D
boolean-clipping collaborator (polybooljs) is external to the library; its
output, already in the shape produced by polygonToGeoJSON, is the clip
parameter.  After the guard the source performs the single-hole bisection
and lifts the rings back to 3D; no claim depends on that part, and a
normal return is modelled as ok with the rings at the guard point. -/
def oper (eps : ℚ) (p1 p2 : List Vec) (clip : List (List Ring2)) : OperOutcome :=
  if operCheckFails eps p1 p2 then .nonCoplanarError
  else
    let result := reshape eps clip
    if result.length > 2 ∧
        (result.filter fun poly => decide (winding eps poly = some 1)).length > 1 then
      .multiHoleError
    else
      .ok result

/-- Polygon.intersect delegates to oper (the mode argument only selects the
external clipping operation and does not affect the guards). -/
def Polygon.intersectOp (eps : ℚ) (p1 p2 : List Vec) (clip : List (List Ring2)) :
    OperOutcome := oper eps p1 p2 clip

/-- Polygon.subtract delegates to oper with the difference mode. -/
def Polygon.subtractOp (eps : ℚ) (p1 p2 : List Vec) (clip : List (List Ring2)) :
    OperOutcome := oper eps p1 p2 clip

/-- Polygon.add delegates to oper with the union mode. -/
def Polygon.addOp (eps : ℚ) (p1 p2 : List Vec) (clip : List (List Ring2)) :
    OperOutcome := oper eps p1 p2 clip

/-- Adjacency of two faces inside a sub-mesh: both belong to the sub-mesh
and share at least one epsilon-equal vertex. -/
def FaceAdj (eps : ℚ) (R : List Face) (f g : Face) : Prop :=
  f ∈ R ∧ g ∈ R ∧ sharesVertex eps f g = true

/-- Reachability of one face from another through a chain of adjacent
faces of the sub-mesh. -/
def ConnectedIn (eps : ℚ) (R : List Face) (f g : Face) : Prop :=
  Relation.ReflTransGen (FaceAdj eps R) f g

/-
Real-valued part of the embedding.  Triangle.contains and the non-coplanar
part of Triangle.intersect use Math.sqrt (through the length getter and
unit of vector.js); they are embedded over the reals with Real.sqrt, so
these definitions are noncomputable and branch conditions use classical
decidability.
-/

/-- RVec is the Vector class over the reals, for the square-root dependent
operations. -/
structure RVec where
  x : ℝ
  y : ℝ
  z : ℝ

/-- Vector addition over the reals. -/
noncomputable def RVec.add (v w : RVec) : RVec := ⟨v.x + w.x, v.y + w.y, v.z + w.z⟩

/-- Vector subtraction over the reals. -/
noncomputable def RVec.sub (v w : RVec) : RVec := ⟨v.x - w.x, v.y - w.y, v.z - w.z⟩

/-- Scalar multiplication over the reals. -/
noncomputable def RVec.scale (factor : ℝ) (v : RVec) : RVec :=
  ⟨factor * v.x, factor * v.y, factor * v.z⟩

/-- Cross product over the reals. -/
noncomputable def RVec.cross (v w : RVec) : RVec :=
  ⟨v.y * w.z - v.z * w.y, -(v.x * w.z) + v.z * w.x, v.x * w.y - v.y * w.x⟩

/-- Dot product over the reals. -/
noncomputable def RVec.dot (v w : RVec) : ℝ := v.x * w.x + v.y * w.y + v.z * w.z

/-- The length getter of vector.js: Math.sqrt of the sum of squares. -/
noncomputable def RVec.length (v : RVec) : ℝ :=
  Real.sqrt (v.x ^ 2 + v.y ^ 2 + v.z ^ 2)

/-- The unit method of vector.js: scale by the reciprocal length. -/
noncomputable def RVec.unit (v : RVec) : RVec := v.scale (1 / v.length)

/-- Injection of the rational-valued vectors into the real-valued ones,
linking the constructor embedding with the square-root dependent
operations. -/
noncomputable def Vec.toR (v : Vec) : RVec := ⟨(v.x : ℝ), (v.y : ℝ), (v.z : ℝ)⟩

/-- Determinant of the matrix with the given column vectors, over the
reals (matrix.js). -/
noncomputable def det3R (c1 c2 c3 : RVec) : ℝ :=
  c1.x * c2.y * c3.z + c2.x * c3.y * c1.z + c3.x * c1.y * c2.z
    - c3.x * c2.y * c1.z - c2.x * c1.y * c3.z - c1.x * c3.y * c2.z

/-- The normal getter of triangle.js: cross product of the edge from the
first to the second vertex with the edge from the second to the third. -/
noncomputable def triNormal (t0 t1 t2 : RVec) : RVec :=
  RVec.cross (t1.sub t0) (t2.sub t1)

/-- Embedding of Triangle.contains of triangle.js.  The plane membership
test of the source is one-sided: it only rejects when the signed distance
exceeds the tolerance on the positive side of the plane.  The area
identity then compares the triangle area against the sum of the three
sub-triangle areas. -/
noncomputable def containsTri (eps : ℝ) (t0 t1 t2 p : RVec) : Prop :=
  let nrm := triNormal t0 t1 t2
  let N := nrm.scale (1 / nrm.length)
  let d := -(N.dot t0)
  ¬(N.dot p + d > eps) ∧
    (let a := t0.sub p
     let b := t1.sub p
     let c := t2.sub p
     let u := RVec.cross b c
     let v := RVec.cross c a
     let w := RVec.cross a b
     |nrm.length - u.length - v.length - w.length| < eps)

/-- Math.sign over the reals. -/
noncomputable def signR (x : ℝ) : ℝ := if x < 0 then -1 else if 0 < x then 1 else 0

/-- The epsilon-stabilized sign helper of triangle.js over the reals. -/
noncomputable def signEpsR (eps x : ℝ) : ℝ := if |x| < eps then 0 else signR x

/-- The intersectThreePlanes helper of Triangle.intersect (Goldman's
three-plane intersection with the third plane through the origin). -/
noncomputable def intersectThreePlanes (N1 : RVec) (d1 : ℝ) (N2 : RVec) (d2 : ℝ)
    (N3 : RVec) : RVec :=
  let det := det3R N1 N2 N3
  (((RVec.cross N2 N3).scale (-d1)).add ((RVec.cross N3 N1).scale (-d2))).scale
    (1 / det)

/-- The per-triangle interval of Triangle.intersect: the if-chain selects
the two paired vertices (same epsilon-stabilized side of the intersection
line) and the lone vertex, and the interval endpoints interpolate the
projections in distance space.  The arguments are the three signed
distances and the three projections onto the intersection line. -/
noncomputable def mollerInterval (eps d0 d1 d2 p0 p1 p2 : ℝ) : ℝ × ℝ :=
  if signEpsR eps d0 = signEpsR eps d1 then
    (p0 + (p2 - p0) * d0 / (d0 - d2), p1 + (p2 - p1) * d1 / (d1 - d2))
  else if signEpsR eps d0 = signEpsR eps d2 then
    (p0 + (p1 - p0) * d0 / (d0 - d1), p2 + (p1 - p2) * d2 / (d2 - d1))
  else if signEpsR eps d1 = signEpsR eps d2 then
    (p1 + (p0 - p1) * d1 / (d1 - d0), p2 + (p0 - p2) * d2 / (d2 - d0))
  else if d0 = 0 then
    (p0 + (p2 - p0) * d0 / (d0 - d2), p1 + (p2 - p1) * d1 / (d1 - d2))
  else
    (p1 + (p0 - p1) * d1 / (d1 - d0), p2 + (p0 - p2) * d2 / (d2 - d0))

/-- The default Array.prototype.sort on the two-element interval arrays:
ECMAScript sorts an array without a comparator by comparing the decimal
string forms of the elements by UTF-16 code units.  For two negative
numbers both strings begin with the minus sign, so the comparison is
decided on the magnitude strings, and for magnitudes below ten (a single
integer digit, as for every pair evaluated in this development) the
string order of the magnitudes is their numeric order: the number of
larger magnitude sorts last, i.e. negative pairs come out in descending
numeric order.  For a nonnegative pair below ten the string order is the
numeric order, and the minus sign (code 0x2D) precedes every digit (codes
0x30 and up), so a negative number sorts before a nonnegative one. -/
noncomputable def sortPairR (p : ℝ × ℝ) : ℝ × ℝ :=
  if p.1 < 0 ∧ p.2 < 0 then (if |p.1| ≤ |p.2| then p else (p.2, p.1))
  else if p.1 ≤ p.2 then p else (p.2, p.1)

/-- Result of Triangle.intersect: null, a single point, a Segment, or the
delegation to the coplanar Polygon intersection (which calls the external
2D clipping collaborator and is outside the embedded core). -/
inductive TriIsect where
  | null
  | point (p : RVec)
  | seg (a b : RVec)
  | coplanarDelegate

open Classical in
/-- Embedding of Triangle.intersect of triangle.js (Moller's triangle
intersection, extended to produce the intersection geometry).  The two
triangles are given by their vertex triples; the source throws for
operands without exactly three vertices, so the embedding takes triples.
The coplanar branch delegates to the inherited Polygon intersection and is
modelled by the coplanarDelegate marker. -/
noncomputable def intersectTri (eps : ℝ) (t0 t1 t2 o0 o1 o2 : RVec) : TriIsect :=
  let N2 := RVec.cross (o1.sub o0) (o2.sub o0)
  let d2 := -(N2.dot o0)
  let d10 := N2.dot t0 + d2
  let d11 := N2.dot t1 + d2
  let d12 := N2.dot t2 + d2
  if (|d10| > eps ∧ |d11| > eps ∧ |d12| > eps) ∧ signR d10 = signR d11
      ∧ signR d10 = signR d12 then .null
  else
    let N1 := RVec.cross (t1.sub t0) (t2.sub t0)
    let d1 := -(N1.dot t0)
    let d20 := N1.dot o0 + d1
    let d21 := N1.dot o1 + d1
    let d22 := N1.dot o2 + d1
    if (|d20| > eps ∧ |d21| > eps ∧ |d22| > eps) ∧ signR d20 = signR d21
        ∧ signR d20 = signR d22 then .null
    else if (|d10| < eps ∧ |d11| < eps ∧ |d12| < eps)
        ∧ (|d20| < eps ∧ |d21| < eps ∧ |d22| < eps) then
      .coplanarDelegate
    else
      let D := (RVec.cross N1 N2).unit
      let O := intersectThreePlanes N1 d1 N2 d2 D
      let i1 := sortPairR (mollerInterval eps d10 d11 d12
        (D.dot (t0.sub O)) (D.dot (t1.sub O)) (D.dot (t2.sub O)))
      let i2 := sortPairR (mollerInterval eps d20 d21 d22
        (D.dot (o0.sub O)) (D.dot (o1.sub O)) (D.dot (o2.sub O)))
      let lo := max i1.1 i2.1
      let hi := min i1.2 i2.2
      if hi - lo > eps then .seg (O.add (D.scale lo)) (O.add (D.scale hi))
      else if lo - hi < eps then .point (O.add (D.scale lo))
      else .null

/-- Whether a Triangle.cut result avoids returning the receiver in place:
true when neither piece is the source-level return of this. -/
def noSamePiece : Option (Piece × Piece) → Bool
  | some (.same, _) => false
  | some (_, .same) => false
  | _ => true

/-
Theorems.
-/


/-- C10: for every pair of parallel segments (squared cross product of the
directions below epsilon) whose first direction has a zero x-component and
whose start points have equal x-coordinates, lineIntersect returns null
without raising — even when the segments are collinear and overlapping —
because the collinearity parameter is the JavaScript division 0/0 = NaN
and both epsilon comparisons are then false; hence Segment.intersect
returns null as well. -/
theorem lineIntersect_parallel_zero_x_null (eps : ℚ) (a1 b1 a2 b2 : Vec)
    (hpar : (Vec.cross (b1.sub a1) (b2.sub a2)).lengthSquared < eps)
    (hx : (b1.sub a1).x = 0) (hax : a2.x = a1.x) :
    lineIntersect eps a1 b1 a2 b2 = none ∧
      Seg.intersect eps ⟨a1, b1⟩ ⟨a2, b2⟩ = none := by
  have hnan : jsDiv (a2.x - a1.x) (b1.sub a1).x = JSNum.nan := by
    rw [hax, hx]
    simp [jsDiv]
  have h1 : lineIntersect eps a1 b1 a2 b2 = none := by
    simp only [lineIntersect]
    rw [if_pos hpar, hnan]
    simp [JSNum.mulQ, JSNum.qSub, JSNum.absLt]
  refine ⟨h1, ?_⟩
  simp only [Seg.intersect, h1]

/-- Witness for the C10 theorem at two collinear overlapping vertical
segments. -/
theorem lineIntersect_parallel_zero_x_null_witness :
    lineIntersect EPSDEF ⟨0, 0, 0⟩ ⟨0, 1, 0⟩ ⟨0, 1/2, 0⟩ ⟨0, 2, 0⟩ = none ∧
      Seg.intersect EPSDEF ⟨⟨0, 0, 0⟩, ⟨0, 1, 0⟩⟩ ⟨⟨0, 1/2, 0⟩, ⟨0, 2, 0⟩⟩ = none :=
  lineIntersect_parallel_zero_x_null EPSDEF ⟨0, 0, 0⟩ ⟨0, 1, 0⟩ ⟨0, 1/2, 0⟩
    ⟨0, 2, 0⟩ (by norm_num [Vec.cross, Vec.sub, Vec.lengthSquared, EPSDEF])
    (by norm_num [Vec.sub]) (by norm_num)

/-- C8 counterexample: these two segments do not lie on the same line (the
second is offset by -1 in y), yet collinear does not return null: the
residual tests of the source are one-sided (residual >= epsilon, without
Math.abs), so a negative offset is not detected. -/
theorem collinear_offset_parallel_nonnull :
    Seg.collinear EPSDEF ⟨⟨0, 0, 0⟩, ⟨1, 0, 0⟩⟩ ⟨⟨0, -1, 0⟩, ⟨1, -1, 0⟩⟩ =
        some (.num 0, .num 1) ∧
      ∀ t : ℚ, Vec.mk 0 (-1) 0 ≠
        (Vec.mk 0 0 0).add ((Seg.direction ⟨⟨0, 0, 0⟩, ⟨1, 0, 0⟩⟩).scale t) := by
  constructor
  · norm_num [Seg.collinear, Seg.direction, Vec.sub, jsDiv, JSNum.mulQ,
      JSNum.qSub, JSNum.geQ, EPSDEF]
  · intro t h
    have hy := congrArg Vec.y h
    simp [Vec.add, Vec.scale, Vec.sub, Seg.direction] at hy

/-- C8 amended: when the two segments do lie on the same line — the other
segment's endpoints are s.a + ta * direction and s.a + tb * direction —
and the direction has a nonzero x-component, collinear returns exactly the
parameters ta and tb.  (When the segments are not on the same line the
result may still be non-null, because the residual test is one-sided; see
the counterexample.) -/
theorem collinear_params_when_collinear (eps : ℚ) (s o : Seg) (ta tb : ℚ)
    (heps : 0 < eps) (hdx : s.direction.x ≠ 0)
    (ha : o.a = s.a.add (s.direction.scale ta))
    (hb : o.b = s.a.add (s.direction.scale tb)) :
    Seg.collinear eps s o = some (.num ta, .num tb) := by
  have hax : o.a.x - s.a.x = ta * s.direction.x := by
    rw [ha]; simp [Vec.add, Vec.scale]
  have hay : o.a.y - s.a.y = ta * s.direction.y := by
    rw [ha]; simp [Vec.add, Vec.scale]
  have haz : o.a.z - s.a.z = ta * s.direction.z := by
    rw [ha]; simp [Vec.add, Vec.scale]
  have hbx : o.b.x - s.a.x = tb * s.direction.x := by
    rw [hb]; simp [Vec.add, Vec.scale]
  have hby : o.b.y - s.a.y = tb * s.direction.y := by
    rw [hb]; simp [Vec.add, Vec.scale]
  have hbz : o.b.z - s.a.z = tb * s.direction.z := by
    rw [hb]; simp [Vec.add, Vec.scale]
  have hta : jsDiv (o.a.x - s.a.x) s.direction.x = .num ta := by
    rw [hax]; simp only [jsDiv, if_pos hdx]
    rw [mul_div_assoc, div_self hdx, mul_one]
  have htb : jsDiv (o.b.x - s.a.x) s.direction.x = .num tb := by
    rw [hbx]; simp only [jsDiv, if_pos hdx]
    rw [mul_div_assoc, div_self hdx, mul_one]
  simp only [Seg.collinear, hta, htb, JSNum.mulQ, JSNum.qSub, JSNum.geQ, hay,
    haz, hby, hbz]
  simp [heps.not_le, sub_self]

/-- Witness for the C8 amended theorem at a concrete collinear pair. -/
theorem collinear_params_when_collinear_witness :
    Seg.collinear EPSDEF ⟨⟨0, 0, 0⟩, ⟨1, 2, 3⟩⟩ ⟨⟨1, 2, 3⟩, ⟨2, 4, 6⟩⟩ =
      some (.num 1, .num 2) :=
  collinear_params_when_collinear EPSDEF ⟨⟨0, 0, 0⟩, ⟨1, 2, 3⟩⟩
    ⟨⟨1, 2, 3⟩, ⟨2, 4, 6⟩⟩ 1 2 (by norm_num [EPSDEF])
    (by norm_num [Seg.direction, Vec.sub])
    (by norm_num [Seg.direction, Vec.sub, Vec.add, Vec.scale])
    (by norm_num [Seg.direction, Vec.sub, Vec.add, Vec.scale])

/-- C9 counterexample: for a triangle coplanar with the cut plane, cut
returns the receiver itself in both fields (the source statements return
this), not newly constructed polygons. -/
theorem cut_returns_input_in_place :
    Triangle.cutP EPSDEF [⟨0, 0, 0⟩, ⟨1, 0, 0⟩, ⟨0, 1, 0⟩] ⟨0, 0, 1⟩ 0 =
      some (.same, .same) := by
  norm_num [Triangle.cutP, Vec.dot, EPSDEF]

/-- C9 amended: cut never mutates the triangle, and when the cut plane
properly crosses the triangle (some vertex at distance at least epsilon on
each side) the returned pieces are newly constructed polygons, never the
receiver returned in place; in the coplanar and non-crossing branches the
receiver itself is returned (see the counterexample). -/
theorem cut_crossing_returns_fresh (eps : ℚ) (T : List Vec) (n : Vec) (o : ℚ)
    (hbelow : ∃ v ∈ T, n.dot v - o ≤ -eps)
    (habove : ∃ v ∈ T, eps ≤ n.dot v - o) :
    noSamePiece (Triangle.cutP eps T n o) = true := by
  obtain ⟨vb, hvb, hdb⟩ := hbelow
  obtain ⟨va, hva, hda⟩ := habove
  have hc1 : ¬((T.map fun v => n.dot v - o).all fun d => decide (|d| < eps)) = true := by
    simp only [List.all_eq_true, List.mem_map, decide_eq_true_eq]
    intro h
    have := h _ ⟨va, hva, rfl⟩
    rw [abs_lt] at this
    linarith [this.2]
  have hc2 : ¬((T.map fun v => n.dot v - o).all fun d => decide (d > -eps)) = true := by
    simp only [List.all_eq_true, List.mem_map, decide_eq_true_eq]
    intro h
    have := h _ ⟨vb, hvb, rfl⟩
    linarith
  have hc3 : ¬((T.map fun v => n.dot v - o).all fun d => decide (d < eps)) = true := by
    simp only [List.all_eq_true, List.mem_map, decide_eq_true_eq]
    intro h
    have := h _ ⟨va, hva, rfl⟩
    linarith
  simp only [Triangle.cutP]
  rw [if_neg hc1, if_neg hc2, if_neg hc3]
  split
  · split
    · split
      · simp [noSamePiece]
      · simp [noSamePiece]
    · split
      · simp [noSamePiece]
      · simp [noSamePiece]
  · simp [noSamePiece]

/-- Witness for the C9 amended theorem at a concrete crossing input. -/
theorem cut_crossing_returns_fresh_witness :
    noSamePiece (Triangle.cutP EPSDEF [⟨0, 0, -1⟩, ⟨1, 0, -1⟩, ⟨0, 0, 1⟩]
      ⟨0, 0, 1⟩ 0) = true :=
  cut_crossing_returns_fresh EPSDEF [⟨0, 0, -1⟩, ⟨1, 0, -1⟩, ⟨0, 0, 1⟩]
    ⟨0, 0, 1⟩ 0 ⟨⟨0, 0, -1⟩, by norm_num, by norm_num [Vec.dot, EPSDEF]⟩
    ⟨⟨0, 0, 1⟩, by norm_num, by norm_num [Vec.dot, EPSDEF]⟩

/-- C4: the code of Mesh.isContiguous is inverted with respect to its own
documentation and to the claim: for a mesh of a single face (which is
contiguous, and whose split has length 1) it returns false, because the
source returns split().length > 1 instead of split().length <= 1. -/
theorem isContiguous_inverted_on_single_face :
    Mesh.isContiguous EPSDEF [[⟨0, 0, 0⟩, ⟨1, 0, 0⟩, ⟨0, 1, 0⟩]] = false ∧
      (Mesh.split EPSDEF [[⟨0, 0, 0⟩, ⟨1, 0, 0⟩, ⟨0, 1, 0⟩]]).length = 1 := by
  have hs : Mesh.split EPSDEF [[⟨0, 0, 0⟩, ⟨1, 0, 0⟩, ⟨0, 1, 0⟩]] =
      [[[⟨0, 0, 0⟩, ⟨1, 0, 0⟩, ⟨0, 1, 0⟩]]] := by
    norm_num [Mesh.split, splitGo, sharesVertex, Vec.equalsb, EPSDEF]
  rw [Mesh.isContiguous, hs]
  norm_num

/-- C5 amended: for polygons with at least three vertices whose Newell
normals are exactly parallel (the second is a nonzero multiple of the
first) and whose plane offsets, measured with the first polygon's
unnormalized normal, differ by at least epsilon, every boolean operation
(intersect, subtract, add) raises the non-coplanar error before any
clipping happens, so no partial result is returned.  (For planes that are
not parallel the error is only raised when the normals also fail the
epsilon-tolerant parallelism test; see the counterexample for a
non-parallel pair that passes it.) -/
theorem oper_parallel_offset_noncoplanar (eps : ℚ) (p1 p2 : List Vec)
    (clip : List (List Ring2)) (l : ℚ) (heps : 0 < eps)
    (h3a : 3 ≤ p1.length) (h3b : 3 ≤ p2.length) (hl : l ≠ 0)
    (hpar : newellNormal p2 = (newellNormal p1).scale l)
    (hoff : eps ≤ |(newellNormal p1).dot p1.headI - (newellNormal p1).dot p2.headI|) :
    Polygon.intersectOp eps p1 p2 clip = .nonCoplanarError ∧
      Polygon.subtractOp eps p1 p2 clip = .nonCoplanarError ∧
      Polygon.addOp eps p1 p2 clip = .nonCoplanarError := by
  have hdiff : (newellNormal p1).dot p1.headI - (newellNormal p1).dot p2.headI ≠ 0 := by
    intro h0
    rw [h0] at hoff
    simp only [abs_zero] at hoff
    linarith
  have hsign : signEps eps
      ((newellNormal p1).dot p1.headI - (newellNormal p1).dot p2.headI) ≠ 0 := by
    rw [signEps, if_neg (not_lt.mpr hoff), jsSign]
    rcases lt_trichotomy
      ((newellNormal p1).dot p1.headI - (newellNormal p1).dot p2.headI) 0 with h | h | h
    · rw [if_pos h]; decide
    · exact absurd h hdiff
    · rw [if_neg (by linarith), if_pos h]; decide
  have hfail : operCheckFails eps p1 p2 = true := by
    simp only [operCheckFails, Bool.or_eq_true, decide_eq_true_eq]
    exact Or.inr hsign
  simp only [Polygon.intersectOp, Polygon.subtractOp, Polygon.addOp, oper,
    hfail, if_true]
  exact ⟨trivial, trivial, trivial⟩

/-- Witness for the C5 amended theorem: two unit triangles in the planes
z = 0 and z = 1. -/
theorem oper_parallel_offset_noncoplanar_witness :
    Polygon.intersectOp EPSDEF [⟨0, 0, 0⟩, ⟨1, 0, 0⟩, ⟨0, 1, 0⟩]
        [⟨0, 0, 1⟩, ⟨1, 0, 1⟩, ⟨0, 1, 1⟩] [] = .nonCoplanarError ∧
      Polygon.subtractOp EPSDEF [⟨0, 0, 0⟩, ⟨1, 0, 0⟩, ⟨0, 1, 0⟩]
        [⟨0, 0, 1⟩, ⟨1, 0, 1⟩, ⟨0, 1, 1⟩] [] = .nonCoplanarError ∧
      Polygon.addOp EPSDEF [⟨0, 0, 0⟩, ⟨1, 0, 0⟩, ⟨0, 1, 0⟩]
        [⟨0, 0, 1⟩, ⟨1, 0, 1⟩, ⟨0, 1, 1⟩] [] = .nonCoplanarError :=
  oper_parallel_offset_noncoplanar EPSDEF _ _ [] 1 (by norm_num [EPSDEF])
    (by norm_num) (by norm_num) one_ne_zero
    (by norm_num [newellNormal, List.rotate, Vec.add, Vec.scale])
    (by norm_num [newellNormal, List.rotate, Vec.add, Vec.dot, List.headI, EPSDEF])

/-- C5 counterexample: two triangles whose planes are not parallel at all
(no scalar multiple relates their Newell normals), yet the boolean
operation does not raise the non-coplanar error: the normal of the second
deviates by less than epsilon after rescaling, so the epsilon-tolerant
parallelism test accepts it, and the sampled offsets agree.  This refutes
the half of the claim demanding the error for every non-parallel pair. -/
theorem oper_nonparallel_passes_check :
    (∀ l : ℚ, newellNormal [⟨0, 0, 0⟩, ⟨1, 0, 1/400000000⟩, ⟨0, 2, 0⟩] ≠
        (newellNormal [⟨0, 0, 0⟩, ⟨1, 0, 0⟩, ⟨0, 2, 0⟩]).scale l) ∧
      Polygon.intersectOp EPSDEF [⟨0, 0, 0⟩, ⟨1, 0, 0⟩, ⟨0, 2, 0⟩]
        [⟨0, 0, 0⟩, ⟨1, 0, 1/400000000⟩, ⟨0, 2, 0⟩] [] = .ok [] := by
  have e1 : newellNormal [(⟨0, 0, 0⟩ : Vec), ⟨1, 0, 0⟩, ⟨0, 2, 0⟩] = ⟨0, 0, 2⟩ := by
    norm_num [newellNormal, List.rotate, Vec.add]
  have e2 : newellNormal [(⟨0, 0, 0⟩ : Vec), ⟨1, 0, 1/400000000⟩, ⟨0, 2, 0⟩] =
      ⟨-(1/200000000), 0, 2⟩ := by
    norm_num [newellNormal, List.rotate, Vec.add]
  constructor
  · intro l h
    rw [e1, e2] at h
    simp only [Vec.scale, Vec.mk.injEq] at h
    have := h.1
    norm_num at this
  · have habs : |(1 : ℚ)/200000000| = 1/200000000 := abs_of_pos (by norm_num)
    norm_num [Polygon.intersectOp, oper, operCheckFails, e1, e2, domAxis,
      Vec.comp, jsDiv, JSNum.mulQ, JSNum.qSub, JSNum.absLt, Vec.dot,
      List.headI, signEps, jsSign, reshape, habs, EPSDEF]

/-- C6: whenever the 2D clipping result, after the GeoJSON reshaping,
contains more than one clockwise-wound inner ring (hole) next to at least
one ring that is not a hole, and the operands pass the coplanarity check,
every boolean operation raises the unsupported-topology (multi-hole) error
instead of returning result polygons. -/
theorem oper_multi_hole_error (eps : ℚ) (p1 p2 : List Vec)
    (clip : List (List Ring2))
    (hcop : operCheckFails eps p1 p2 = false)
    (hcw : 1 < ((reshape eps clip).filter fun r =>
      decide (winding eps r = some 1)).length)
    (hext : ∃ r ∈ reshape eps clip, winding eps r ≠ some 1) :
    Polygon.intersectOp eps p1 p2 clip = .multiHoleError ∧
      Polygon.subtractOp eps p1 p2 clip = .multiHoleError ∧
      Polygon.addOp eps p1 p2 clip = .multiHoleError := by
  have hlen : ((reshape eps clip).filter fun r =>
      decide (winding eps r = some 1)).length < (reshape eps clip).length := by
    rw [List.length_filter_lt_length_iff_exists]
    obtain ⟨r, hr, hne⟩ := hext
    exact ⟨r, hr, by simpa using hne⟩
  have hguard : (reshape eps clip).length > 2 ∧ ((reshape eps clip).filter fun r =>
      decide (winding eps r = some 1)).length > 1 := ⟨by omega, hcw⟩
  simp only [Polygon.intersectOp, Polygon.subtractOp, Polygon.addOp, oper,
    hcop, Bool.false_eq_true, if_false, if_pos hguard]
  exact ⟨trivial, trivial, trivial⟩

/-- Witness for the C6 theorem: identical coplanar operand triangles and a
clipping result of one exterior counter-clockwise ring with two clockwise
holes. -/
theorem oper_multi_hole_error_witness :
    Polygon.intersectOp EPSDEF [⟨0, 0, 0⟩, ⟨1, 0, 0⟩, ⟨0, 1, 0⟩]
        [⟨0, 0, 0⟩, ⟨1, 0, 0⟩, ⟨0, 1, 0⟩]
        [[[(0, 0), (10, 0), (10, 10), (0, 10)],
          [(1, 1), (1, 2), (2, 2), (2, 1)],
          [(4, 4), (4, 5), (5, 5), (5, 4)]]] = .multiHoleError ∧
      Polygon.subtractOp EPSDEF [⟨0, 0, 0⟩, ⟨1, 0, 0⟩, ⟨0, 1, 0⟩]
        [⟨0, 0, 0⟩, ⟨1, 0, 0⟩, ⟨0, 1, 0⟩]
        [[[(0, 0), (10, 0), (10, 10), (0, 10)],
          [(1, 1), (1, 2), (2, 2), (2, 1)],
          [(4, 4), (4, 5), (5, 5), (5, 4)]]] = .multiHoleError ∧
      Polygon.addOp EPSDEF [⟨0, 0, 0⟩, ⟨1, 0, 0⟩, ⟨0, 1, 0⟩]
        [⟨0, 0, 0⟩, ⟨1, 0, 0⟩, ⟨0, 1, 0⟩]
        [[[(0, 0), (10, 0), (10, 10), (0, 10)],
          [(1, 1), (1, 2), (2, 2), (2, 1)],
          [(4, 4), (4, 5), (5, 5), (5, 4)]]] = .multiHoleError :=
  oper_multi_hole_error EPSDEF _ _ _
    (by norm_num [operCheckFails, newellNormal, List.rotate, Vec.add, domAxis,
      Vec.comp, jsDiv, JSNum.mulQ, JSNum.qSub, JSNum.absLt, Vec.dot,
      List.headI, signEps, EPSDEF])
    (by norm_num [reshape, dedupRing, eq2, winding, List.rotate, signEps,
      jsSign, List.filter_cons, EPSDEF])
    ⟨[(0, 0), (10, 0), (10, 10), (0, 10)],
      by norm_num [reshape, dedupRing, eq2, EPSDEF],
      by norm_num [winding, List.rotate, signEps, jsSign, EPSDEF]⟩

/-- C2: for every triangle and cut plane, if all three signed distances
have absolute value below epsilon the cut returns the triangle in both
above and below; if the plane does not intersect the triangle (all
distances above -epsilon, or all below epsilon, but not all within epsilon
of zero), exactly one of above and below equals the triangle and the other
is the empty polygon. -/
theorem triangle_cut_plane_totality (eps : ℚ) (a b c n : Vec) (o : ℚ) :
    ((|n.dot a - o| < eps ∧ |n.dot b - o| < eps ∧ |n.dot c - o| < eps) →
      Triangle.cut eps [a, b, c] n o = some ([a, b, c], [a, b, c])) ∧
    ((-eps < n.dot a - o ∧ -eps < n.dot b - o ∧ -eps < n.dot c - o) →
      ¬(|n.dot a - o| < eps ∧ |n.dot b - o| < eps ∧ |n.dot c - o| < eps) →
      Triangle.cut eps [a, b, c] n o = some ([a, b, c], []) ∧
        ([] : List Vec) ≠ [a, b, c]) ∧
    ((n.dot a - o < eps ∧ n.dot b - o < eps ∧ n.dot c - o < eps) →
      ¬(|n.dot a - o| < eps ∧ |n.dot b - o| < eps ∧ |n.dot c - o| < eps) →
      Triangle.cut eps [a, b, c] n o = some ([], [a, b, c]) ∧
        ([a, b, c] : List Vec) ≠ []) := by
  have call1 : ((([a, b, c].map fun v => n.dot v - o).all fun d =>
      decide (|d| < eps)) = true) ↔
      (|n.dot a - o| < eps ∧ |n.dot b - o| < eps ∧ |n.dot c - o| < eps) := by
    simp
  have call2 : ((([a, b, c].map fun v => n.dot v - o).all fun d =>
      decide (d > -eps)) = true) ↔
      (-eps < n.dot a - o ∧ -eps < n.dot b - o ∧ -eps < n.dot c - o) := by
    simp
  have call3 : ((([a, b, c].map fun v => n.dot v - o).all fun d =>
      decide (d < eps)) = true) ↔
      (n.dot a - o < eps ∧ n.dot b - o < eps ∧ n.dot c - o < eps) := by
    simp
  refine ⟨fun h1 => ?_, fun h2 hn1 => ?_, fun h3 hn1 => ?_⟩
  · simp only [Triangle.cut, Triangle.cutP]
    rw [if_pos (call1.mpr h1)]
    simp [pieceVal]
  · simp only [Triangle.cut, Triangle.cutP]
    rw [if_neg (fun hh => hn1 (call1.mp hh)), if_pos (call2.mpr h2)]
    exact ⟨by simp [pieceVal], by simp⟩
  · simp only [Triangle.cut, Triangle.cutP]
    rw [if_neg (fun hh => hn1 (call1.mp hh)), if_neg, if_pos (call3.mpr h3)]
    · exact ⟨by simp [pieceVal], by simp⟩
    · intro hh
      rcases (call2.mp hh) with ⟨ha2, hb2, hc2⟩
      rcases h3 with ⟨ha3, hb3, hc3⟩
      exact hn1 ⟨abs_lt.mpr ⟨ha2, ha3⟩, abs_lt.mpr ⟨hb2, hb3⟩,
        abs_lt.mpr ⟨hc2, hc3⟩⟩
  -- note: in the third case the second branch cannot be taken, because all
  -- distances above -eps together with all below eps would put the
  -- triangle in the coplanar branch already excluded by hn1

/-- Witness for the C2 theorem: a triangle on the plane z = 0 cut by the
plane z = -1 lands entirely in above, with an empty below polygon. -/
theorem triangle_cut_plane_totality_witness :
    Triangle.cut EPSDEF [⟨0, 0, 0⟩, ⟨1, 0, 0⟩, ⟨0, 1, 0⟩] ⟨0, 0, 1⟩ (-1) =
        some ([⟨0, 0, 0⟩, ⟨1, 0, 0⟩, ⟨0, 1, 0⟩], []) ∧
      ([] : List Vec) ≠ [⟨0, 0, 0⟩, ⟨1, 0, 0⟩, ⟨0, 1, 0⟩] :=
  (triangle_cut_plane_totality EPSDEF ⟨0, 0, 0⟩ ⟨1, 0, 0⟩ ⟨0, 1, 0⟩
      ⟨0, 0, 1⟩ (-1)).2.1
    (by norm_num [Vec.dot, EPSDEF]) (by norm_num [Vec.dot, EPSDEF])

/-- Epsilon-equality of vectors is symmetric. -/
theorem equalsb_symm (eps : ℚ) (v w : Vec) :
    Vec.equalsb eps v w = Vec.equalsb eps w v := by
  rw [Bool.eq_iff_iff]
  simp only [Vec.equalsb, Bool.and_eq_true, decide_eq_true_eq]
  rw [abs_sub_comm v.x w.x, abs_sub_comm v.y w.y, abs_sub_comm v.z w.z]

/-- Vertex sharing of faces is symmetric. -/
theorem sharesVertex_symm (eps : ℚ) (f g : Face) :
    sharesVertex eps f g = sharesVertex eps g f := by
  rw [Bool.eq_iff_iff]
  simp only [sharesVertex, List.any_eq_true]
  constructor
  · rintro ⟨vr, hvr, vs, hvs, h⟩
    exact ⟨vs, hvs, vr, hvr, by rw [equalsb_symm]; exact h⟩
  · rintro ⟨vr, hvr, vs, hvs, h⟩
    exact ⟨vs, hvs, vr, hvr, by rw [equalsb_symm]; exact h⟩

/-- Connectivity inside a sub-mesh is monotone under enlarging the
sub-mesh. -/
theorem connected_mono (eps : ℚ) {R S : List Face} (h : ∀ x ∈ R, x ∈ S)
    {f g : Face} : ConnectedIn eps R f g → ConnectedIn eps S f g :=
  Relation.ReflTransGen.mono fun a b hab => ⟨h _ hab.1, h _ hab.2.1, hab.2.2⟩

/-- Growing a mutually connected region by faces that each share a vertex
with a face of the selection keeps the region mutually connected. -/
theorem region_grow_conn (eps : ℚ) (S nw sel0 : List Face)
    (hconn : ∀ f ∈ S, ∀ g ∈ S, ConnectedIn eps S f g)
    (hsub : ∀ f ∈ sel0, f ∈ S)
    (hnew : ∀ f ∈ nw, ∃ sf ∈ sel0, sharesVertex eps f sf = true) :
    ∀ f ∈ S ++ nw, ∀ g ∈ S ++ nw, ConnectedIn eps (S ++ nw) f g := by
  have hS : ∀ x ∈ S, x ∈ S ++ nw := fun x hx => List.mem_append_left _ hx
  have hN : ∀ x ∈ nw, x ∈ S ++ nw := fun x hx => List.mem_append_right _ hx
  intro f hf g hg
  rw [List.mem_append] at hf hg
  rcases hf with hf | hf
  · rcases hg with hg | hg
    · exact connected_mono eps hS (hconn f hf g hg)
    · obtain ⟨sg, hsg, hshare⟩ := hnew g hg
      exact (connected_mono eps hS (hconn f hf sg (hsub _ hsg))).tail
        ⟨hS _ (hsub _ hsg), hN _ hg, by rw [sharesVertex_symm]; exact hshare⟩
  · obtain ⟨sf, hsf, hsharef⟩ := hnew f hf
    have h0 : ConnectedIn eps (S ++ nw) f sf :=
      Relation.ReflTransGen.single ⟨hN _ hf, hS _ (hsub _ hsf), hsharef⟩
    rcases hg with hg | hg
    · exact h0.trans (connected_mono eps hS (hconn sf (hsub _ hsf) g hg))
    · obtain ⟨sg, hsg, hshareg⟩ := hnew g hg
      exact (h0.trans (connected_mono eps hS
          (hconn sf (hsub _ hsf) sg (hsub _ hsg)))).tail
        ⟨hS _ (hsub _ hsg), hN _ hg, by rw [sharesVertex_symm]; exact hshareg⟩

/-- Invariant lemma for the loop of Mesh.split: given the loop invariants
(the selection is part of the remaining faces, the current region is
disjoint from them, completed regions are disjoint from everything still
active and mutually connected), the loop produces regions that cover
exactly the remaining faces together with the active region, are pairwise
disjoint, and are each mutually vertex-connected. -/
theorem splitGo_spec (eps : ℚ) (fuel : Nat) :
    ∀ (remaining selected current : List Face) (finished : List (List Face)),
    remaining.length < fuel →
    (∀ f ∈ selected, f ∈ remaining) →
    (∀ f ∈ current, f ∉ remaining) →
    (∀ R ∈ finished, ∀ f ∈ R, f ∉ current ∧ f ∉ remaining) →
    List.Pairwise (fun R S => ∀ f ∈ R, f ∉ S) finished →
    (∀ R ∈ finished, ∀ f ∈ R, ∀ g ∈ R, ConnectedIn eps R f g) →
    (∀ f ∈ current ++ selected, ∀ g ∈ current ++ selected,
      ConnectedIn eps (current ++ selected) f g) →
    ((∀ f, f ∈ (splitGo eps fuel remaining selected current finished).flatten ↔
        f ∈ finished.flatten ∨ f ∈ current ∨ f ∈ remaining) ∧
      List.Pairwise (fun R S => ∀ f ∈ R, f ∉ S)
        (splitGo eps fuel remaining selected current finished) ∧
      (∀ R ∈ splitGo eps fuel remaining selected current finished,
        ∀ f ∈ R, ∀ g ∈ R, ConnectedIn eps R f g)) := by
  induction fuel with
  | zero =>
    intro remaining _ _ _ hlt
    exact absurd hlt (Nat.not_lt_zero _)
  | succ fuel ih =>
    intro remaining selected current finished hlt hsel hcur hfin hpair hfinconn hcurconn
    match remaining with
    | [] =>
      have hsel0 : selected = [] :=
        List.eq_nil_iff_forall_not_mem.mpr fun x hx => by simpa using hsel x hx
      subst hsel0
      rw [show splitGo eps (fuel + 1) [] [] current finished =
        finished ++ [current] from rfl]
      refine ⟨fun f => ?_, ?_, ?_⟩
      · simp only [List.flatten_append, List.mem_append, List.flatten_cons,
          List.flatten_nil, List.append_nil, List.not_mem_nil, or_false]
      · rw [List.pairwise_append]
        exact ⟨hpair, List.pairwise_singleton _ _, fun R hR c' hc' => by
          simp only [List.mem_singleton] at hc'
          subst hc'
          exact fun f hf => (hfin R hR f hf).1⟩
      · intro R hR
        rw [List.mem_append] at hR
        rcases hR with hR | hR
        · exact hfinconn R hR
        · simp only [List.mem_singleton] at hR
          subst hR
          simpa using hcurconn
    | r :: rs =>
      -- names for the values computed by one loop iteration
      rcases hsel0 : selected with _ | ⟨s, ss⟩
      · -- a new region starts at r
        subst hsel0
        have hstep : splitGo eps (fuel + 1) (r :: rs) [] current finished =
            splitGo eps fuel ((r :: rs).filter fun f => !([r].contains f))
              (((r :: rs).filter fun f => !([r].contains f)).filter fun rf =>
                [r].any fun sf => sharesVertex eps rf sf)
              ([] ++ [r]) (finished ++ [current]) := rfl
        rw [hstep]
        have hmem1 : ∀ f, f ∈ ((r :: rs).filter fun f => !([r].contains f)) ↔
            f ∈ r :: rs ∧ f ≠ r := by
          intro f
          simp [List.mem_filter]
          tauto
        obtain ⟨iha, ihb, ihc⟩ := ih ((r :: rs).filter fun f => !([r].contains f))
          (((r :: rs).filter fun f => !([r].contains f)).filter fun rf =>
            [r].any fun sf => sharesVertex eps rf sf)
          ([] ++ [r]) (finished ++ [current])
          (lt_of_lt_of_le
            (List.length_filter_lt_length_iff_exists.mpr
              ⟨r, List.mem_cons_self r rs, by simp⟩)
            (Nat.lt_succ_iff.mp hlt))
          (fun f hf => List.mem_of_mem_filter hf)
          (fun f hf h' => by
            simp only [List.nil_append, List.mem_singleton] at hf
            exact ((hmem1 f).mp h').2 hf)
          (fun R hR f hf => by
            rw [List.mem_append] at hR
            rcases hR with hR | hR
            · have h2 := hfin R hR f hf
              constructor
              · simp only [List.nil_append, List.mem_singleton]
                intro h'
                exact h2.2 (by rw [h']; exact List.mem_cons_self r rs)
              · intro h'
                exact h2.2 (List.mem_of_mem_filter h')
            · simp only [List.mem_singleton] at hR
              subst hR
              constructor
              · simp only [List.nil_append, List.mem_singleton]
                intro h'
                exact hcur f hf (by rw [h']; exact List.mem_cons_self r rs)
              · intro h'
                exact hcur f hf (List.mem_of_mem_filter h'))
          (by
            rw [List.pairwise_append]
            exact ⟨hpair, List.pairwise_singleton _ _, fun R hR c' hc' => by
              simp only [List.mem_singleton] at hc'
              subst hc'
              exact fun f hf => (hfin R hR f hf).1⟩)
          (fun R hR => by
            rw [List.mem_append] at hR
            rcases hR with hR | hR
            · exact hfinconn R hR
            · simp only [List.mem_singleton] at hR
              subst hR
              simpa using hcurconn)
          (by
            have := region_grow_conn eps [r]
              (((r :: rs).filter fun f => !([r].contains f)).filter fun rf =>
                [r].any fun sf => sharesVertex eps rf sf)
              [r]
              (fun f hf g hg => by
                simp only [List.mem_singleton] at hf hg
                subst hf; subst hg
                exact Relation.ReflTransGen.refl)
              (fun f hf => hf)
              (fun f hf => by
                have h2 := (List.mem_filter.mp hf).2
                rw [List.any_eq_true] at h2
                exact h2)
            simpa using this)
        refine ⟨fun f => ?_, ihb, ihc⟩
        rw [iha f]
        simp only [List.flatten_append, List.mem_append, List.flatten_cons,
          List.flatten_nil, List.append_nil, List.nil_append,
          List.mem_singleton, hmem1 f]
        constructor
        · rintro ((h | h) | h | h)
          · exact Or.inl h
          · exact Or.inr (Or.inl h)
          · exact Or.inr (Or.inr (by rw [h]; exact List.mem_cons_self r rs))
          · exact Or.inr (Or.inr h.1)
        · rintro (h | h | h)
          · exact Or.inl (Or.inl h)
          · exact Or.inl (Or.inr h)
          · by_cases hr : f = r
            · exact Or.inr (Or.inl hr)
            · exact Or.inr (Or.inr ⟨h, hr⟩)
      · -- the region grows by the current selection
        subst hsel0
        have hstep : splitGo eps (fuel + 1) (r :: rs) (s :: ss) current finished =
            splitGo eps fuel
              ((r :: rs).filter fun f => !((s :: ss).contains f))
              (((r :: rs).filter fun f => !((s :: ss).contains f)).filter fun rf =>
                (s :: ss).any fun sf => sharesVertex eps rf sf)
              (current ++ s :: ss) finished := rfl
        rw [hstep]
        have hmem1 : ∀ f, f ∈ ((r :: rs).filter fun f => !((s :: ss).contains f)) ↔
            f ∈ r :: rs ∧ f ∉ s :: ss := by
          intro f
          simp [List.mem_filter]
        obtain ⟨iha, ihb, ihc⟩ := ih
          ((r :: rs).filter fun f => !((s :: ss).contains f))
          (((r :: rs).filter fun f => !((s :: ss).contains f)).filter fun rf =>
            (s :: ss).any fun sf => sharesVertex eps rf sf)
          (current ++ s :: ss) finished
          (lt_of_lt_of_le
            (List.length_filter_lt_length_iff_exists.mpr
              ⟨s, hsel s (List.mem_cons_self s ss), by simp⟩)
            (Nat.lt_succ_iff.mp hlt))
          (fun f hf => List.mem_of_mem_filter hf)
          (fun f hf h' => by
            rw [List.mem_append] at hf
            rcases hf with hf | hf
            · exact hcur f hf (List.mem_of_mem_filter h')
            · exact ((hmem1 f).mp h').2 hf)
          (fun R hR f hf => by
            have h2 := hfin R hR f hf
            constructor
            · rw [List.mem_append]
              rintro (h' | h')
              · exact h2.1 h'
              · exact h2.2 (hsel f h')
            · intro h'
              exact h2.2 (List.mem_of_mem_filter h'))
          hpair
          hfinconn
          (by
            have := region_grow_conn eps (current ++ s :: ss)
              (((r :: rs).filter fun f => !((s :: ss).contains f)).filter fun rf =>
                (s :: ss).any fun sf => sharesVertex eps rf sf)
              (s :: ss)
              hcurconn
              (fun f hf => List.mem_append_right _ hf)
              (fun f hf => by
                have h2 := (List.mem_filter.mp hf).2
                rw [List.any_eq_true] at h2
                exact h2)
            simpa [List.append_assoc] using this)
        refine ⟨fun f => ?_, ihb, ihc⟩
        rw [iha f]
        simp only [List.mem_append, hmem1 f]
        constructor
        · rintro (h | (h | h) | h)
          · exact Or.inl h
          · exact Or.inr (Or.inl h)
          · exact Or.inr (Or.inr (hsel f h))
          · exact Or.inr (Or.inr h.1)
        · rintro (h | h | h)
          · exact Or.inl h
          · exact Or.inr (Or.inl (Or.inl h))
          · by_cases hs' : f ∈ s :: ss
            · exact Or.inr (Or.inl (Or.inr hs'))
            · exact Or.inr (Or.inr ⟨h, hs'⟩)

/-- C3: the sub-meshes returned by Mesh.split form a partition of the
faces: as a set, the concatenation of the sub-meshes equals the faces of
the mesh, no face value occurs in two different sub-meshes, and within
each returned sub-mesh every face is reachable from every other through a
chain of faces of that sub-mesh sharing at least one epsilon-equal
vertex. -/
theorem mesh_split_partition (eps : ℚ) (M : List Face) :
    (∀ f, f ∈ (Mesh.split eps M).flatten ↔ f ∈ M) ∧
      List.Pairwise (fun R S => ∀ f ∈ R, f ∉ S) (Mesh.split eps M) ∧
      (∀ R ∈ Mesh.split eps M, ∀ f ∈ R, ∀ g ∈ R, ConnectedIn eps R f g) := by
  match M with
  | [] =>
    refine ⟨fun f => ?_, ?_, ?_⟩ <;> simp [Mesh.split]
  | m :: ms =>
    rw [show Mesh.split eps (m :: ms) =
      splitGo eps ((m :: ms).length + 1) (m :: ms) [m] [] [] from rfl]
    obtain ⟨ha, hb, hc⟩ := splitGo_spec eps ((m :: ms).length + 1)
      (m :: ms) [m] [] []
      (Nat.lt_succ_self _)
      (fun f hf => by
        simp only [List.mem_singleton] at hf
        rw [hf]
        exact List.mem_cons_self m ms)
      (fun f hf => absurd hf (List.not_mem_nil f))
      (fun R hR => absurd hR (List.not_mem_nil R))
      List.Pairwise.nil
      (fun R hR => absurd hR (List.not_mem_nil R))
      (fun f hf g hg => by
        simp only [List.nil_append, List.mem_singleton] at hf hg
        subst hf; subst hg
        exact Relation.ReflTransGen.refl)
    refine ⟨fun f => ?_, hb, hc⟩
    rw [ha f]
    simp

/-- Witness for the C3 theorem: the partition law instantiated at a
two-face mesh and a concrete face. -/
theorem mesh_split_partition_witness :
    [(⟨0, 0, 0⟩ : Vec), ⟨1, 0, 0⟩, ⟨0, 1, 0⟩] ∈
        (Mesh.split EPSDEF [[⟨0, 0, 0⟩, ⟨1, 0, 0⟩, ⟨0, 1, 0⟩],
          [⟨5, 5, 5⟩, ⟨6, 5, 5⟩, ⟨5, 6, 5⟩]]).flatten ↔
      [(⟨0, 0, 0⟩ : Vec), ⟨1, 0, 0⟩, ⟨0, 1, 0⟩] ∈
        [[(⟨0, 0, 0⟩ : Vec), ⟨1, 0, 0⟩, ⟨0, 1, 0⟩],
          [⟨5, 5, 5⟩, ⟨6, 5, 5⟩, ⟨5, 6, 5⟩]] :=
  (mesh_split_partition EPSDEF [[⟨0, 0, 0⟩, ⟨1, 0, 0⟩, ⟨0, 1, 0⟩],
    [⟨5, 5, 5⟩, ⟨6, 5, 5⟩, ⟨5, 6, 5⟩]]).1 _

/-- C7 counterexample: a point at signed distance -2e-8 below the plane of
the triangle (0,0,0), (4,0,0), (0,4,0) — twice epsilon in absolute value,
measured with the unit normal — is accepted by contains: the plane test of
the source is one-sided (it only rejects distances above +epsilon), and the
area identity differs from the triangle area only quadratically in the
offset, far below epsilon. -/
theorem contains_accepts_point_below_plane :
    containsTri (1/10^8) ⟨0, 0, 0⟩ ⟨4, 0, 0⟩ ⟨0, 4, 0⟩ ⟨1, 1, -(2/10^8)⟩ ∧
      (1/10^8 : ℝ) ≤
        |(triNormal ⟨0, 0, 0⟩ ⟨4, 0, 0⟩ ⟨0, 4, 0⟩).unit.dot ⟨1, 1, -(2/10^8)⟩ -
          (triNormal ⟨0, 0, 0⟩ ⟨4, 0, 0⟩ ⟨0, 4, 0⟩).unit.dot ⟨0, 0, 0⟩| := by
  have hnrm : triNormal ⟨0, 0, 0⟩ ⟨4, 0, 0⟩ ⟨0, 4, 0⟩ = RVec.mk 0 0 16 := by
    simp only [triNormal, RVec.cross, RVec.sub]
    norm_num
  have hlen : (RVec.mk (0:ℝ) 0 16).length = 16 := by
    simp only [RVec.length]
    rw [show ((0:ℝ) ^ 2 + 0 ^ 2 + 16 ^ 2) = 16 ^ 2 by norm_num,
      Real.sqrt_sq (by norm_num : (0:ℝ) ≤ 16)]
  have hu : RVec.cross (RVec.sub ⟨4, 0, 0⟩ ⟨1, 1, -(2/10^8)⟩)
      (RVec.sub ⟨0, 4, 0⟩ ⟨1, 1, -(2/10^8)⟩) =
      RVec.mk (-(8/10^8)) (-(8/10^8)) 8 := by
    simp only [RVec.cross, RVec.sub]
    norm_num
  have hv : RVec.cross (RVec.sub ⟨0, 4, 0⟩ ⟨1, 1, -(2/10^8)⟩)
      (RVec.sub ⟨0, 0, 0⟩ ⟨1, 1, -(2/10^8)⟩) = RVec.mk (8/10^8) 0 4 := by
    simp only [RVec.cross, RVec.sub]
    norm_num
  have hw : RVec.cross (RVec.sub ⟨0, 0, 0⟩ ⟨1, 1, -(2/10^8)⟩)
      (RVec.sub ⟨4, 0, 0⟩ ⟨1, 1, -(2/10^8)⟩) = RVec.mk 0 (8/10^8) 4 := by
    simp only [RVec.cross, RVec.sub]
    norm_num
  have hul : (RVec.mk (-(8/10^8) : ℝ) (-(8/10^8)) 8).length =
      Real.sqrt (64 + 128/10^16) := by
    simp only [RVec.length]
    rw [show ((-(8/10^8) : ℝ)) ^ 2 + (-(8/10^8)) ^ 2 + 8 ^ 2 = 64 + 128/10^16 by
      norm_num]
  have hvl : (RVec.mk ((8/10^8) : ℝ) 0 4).length = Real.sqrt (16 + 64/10^16) := by
    simp only [RVec.length]
    rw [show (((8/10^8) : ℝ)) ^ 2 + 0 ^ 2 + 4 ^ 2 = 16 + 64/10^16 by norm_num]
  have hwl : (RVec.mk (0 : ℝ) (8/10^8) 4).length = Real.sqrt (16 + 64/10^16) := by
    simp only [RVec.length]
    rw [show ((0 : ℝ)) ^ 2 + (8/10^8) ^ 2 + 4 ^ 2 = 16 + 64/10^16 by norm_num]
  have s1lo : (8 : ℝ) ≤ Real.sqrt (64 + 128/10^16) :=
    (Real.le_sqrt' (by norm_num)).mpr (by norm_num)
  have s1hi : Real.sqrt (64 + 128/10^16) ≤ 8 + 8/10^16 :=
    (Real.sqrt_le_left (by norm_num)).mpr (by norm_num)
  have s2lo : (4 : ℝ) ≤ Real.sqrt (16 + 64/10^16) :=
    (Real.le_sqrt' (by norm_num)).mpr (by norm_num)
  have s2hi : Real.sqrt (16 + 64/10^16) ≤ 4 + 8/10^16 :=
    (Real.sqrt_le_left (by norm_num)).mpr (by norm_num)
  constructor
  · simp only [containsTri, hnrm, hlen, hu, hv, hw, hul, hvl, hwl]
    constructor
    · simp only [RVec.scale, RVec.dot]
      norm_num
    · rw [abs_lt]
      constructor
      · linarith
      · linarith
  · have hunit : (RVec.mk (0:ℝ) 0 16).unit = RVec.mk 0 0 (1/16 * 16) := by
      simp only [RVec.unit, hlen, RVec.scale]
      norm_num
    rw [hnrm, hunit]
    simp only [RVec.dot]
    rw [show ((0:ℝ) * 1 + 0 * 1 + 1/16 * 16 * -(2/10^8)) -
        (0 * 0 + 0 * 0 + 1/16 * 16 * 0) = -(2/10^8) by norm_num]
    rw [abs_of_nonpos (by norm_num)]
    norm_num

/-- C7 amended: for every triangle and every point whose signed distance
from the triangle's plane, measured with the unit normal, exceeds epsilon
on the positive side, contains returns false (the one-sided plane test
rejects it); points on the negative side are not rejected by the plane
test.  See the counterexample for a negative-side point at distance twice
epsilon that contains accepts. -/
theorem contains_rejects_positive_side (eps : ℝ) (t0 t1 t2 p : RVec)
    (h : ((triNormal t0 t1 t2).scale (1 / (triNormal t0 t1 t2).length)).dot p -
      ((triNormal t0 t1 t2).scale (1 / (triNormal t0 t1 t2).length)).dot t0 > eps) :
    ¬containsTri eps t0 t1 t2 p := by
  intro hc
  simp only [containsTri] at hc
  exact hc.1 (by linarith)

/-- Witness for the C7 amended theorem: a point one unit above the plane
is rejected. -/
theorem contains_rejects_positive_side_witness :
    ¬containsTri (1/10^8) ⟨0, 0, 0⟩ ⟨4, 0, 0⟩ ⟨0, 4, 0⟩ ⟨1, 1, 1⟩ :=
  contains_rejects_positive_side (1/10^8) ⟨0, 0, 0⟩ ⟨4, 0, 0⟩ ⟨0, 4, 0⟩ ⟨1, 1, 1⟩
    (by
      have hnrm : triNormal ⟨0, 0, 0⟩ ⟨4, 0, 0⟩ ⟨0, 4, 0⟩ = RVec.mk 0 0 16 := by
        simp only [triNormal, RVec.cross, RVec.sub]
        norm_num
      have hlen : (RVec.mk (0:ℝ) 0 16).length = 16 := by
        simp only [RVec.length]
        rw [show ((0:ℝ) ^ 2 + 0 ^ 2 + 16 ^ 2) = 16 ^ 2 by norm_num,
          Real.sqrt_sq (by norm_num : (0:ℝ) ≤ 16)]
      rw [hnrm, hlen]
      simp only [RVec.scale, RVec.dot]
      norm_num)

/-- C1: the claim states that intersecting the Triangle constructed from
(1,0,0), (5,5,5), (-2,4,4) with the Triangle constructed from (4.5,-2,4),
(-2.5,6,0), (-0.5,10,4) yields the Segment between (1,2,2) and (2,4,4),
the geometric intersection of the two triangles.  The program diverges:
the first constructor stores its vertices as given (already
counter-clockwise in the x-y plane), the second stores them reversed
(x-y winding +1), and on the stored operands the default lexicographic
Array.sort leaves the first Moller interval [-6/5, -90/13] in descending
numeric order and swaps [-6, -3] into [-3, -6]; the overlap window then
has negative length, both final guards fail, and intersect returns null
instead of the claimed segment. -/
theorem moller_jut_through_constructed_null :
    (mkTriangleL EPSDEF [⟨1, 0, 0⟩, ⟨5, 5, 5⟩, ⟨-2, 4, 4⟩]).map Vec.toR =
      [⟨1, 0, 0⟩, ⟨5, 5, 5⟩, ⟨-2, 4, 4⟩] ∧
    (mkTriangleL EPSDEF [⟨9/2, -2, 4⟩, ⟨-(5/2), 6, 0⟩, ⟨-(1/2), 10, 4⟩]).map Vec.toR =
      [⟨-(1/2), 10, 4⟩, ⟨-(5/2), 6, 0⟩, ⟨9/2, -2, 4⟩] ∧
    intersectTri (1/10^8) ⟨1, 0, 0⟩ ⟨5, 5, 5⟩ ⟨-2, 4, 4⟩
      ⟨-(1/2), 10, 4⟩ ⟨-(5/2), 6, 0⟩ ⟨9/2, -2, 4⟩ = .null := by
  refine ⟨?_, ?_, ?_⟩
  · have habs : |(-31:ℚ)| = 31 := by
      rw [abs_of_neg (by norm_num : (-31:ℚ) < 0)]; norm_num
    norm_num [mkTriangleL, mkTriangle, mkPolygon, det3, winding, List.rotate,
      signEps, jsSign, EPSDEF, habs, Vec.toR]
  · have habs : |(44:ℚ)| = 44 := abs_of_pos (by norm_num)
    norm_num [mkTriangleL, mkTriangle, mkPolygon, det3, winding, List.rotate,
      signEps, jsSign, EPSDEF, habs, Vec.toR]
  · have hsqrt : Real.sqrt ((-744:ℝ) ^ 2 + (-1488) ^ 2 + (-1488) ^ 2) = 2232 := by
      rw [show ((-744:ℝ) ^ 2 + (-1488) ^ 2 + (-1488) ^ 2) = 2232 ^ 2 by norm_num,
        Real.sqrt_sq (by norm_num : (0:ℝ) ≤ 2232)]
    have hN2 : RVec.cross (RVec.sub ⟨-(5/2), 6, 0⟩ ⟨-(1/2), 10, 4⟩)
        (RVec.sub ⟨9/2, -2, 4⟩ ⟨-(1/2), 10, 4⟩) = RVec.mk (-48) (-20) 44 := by
      simp only [RVec.cross, RVec.sub]
      norm_num
    have hN1 : RVec.cross (RVec.sub ⟨5, 5, 5⟩ ⟨1, 0, 0⟩)
        (RVec.sub ⟨-2, 4, 4⟩ ⟨1, 0, 0⟩) = RVec.mk 0 (-31) 31 := by
      simp only [RVec.cross, RVec.sub]
      norm_num
    have hd1 : RVec.dot (RVec.mk (-48:ℝ) (-20) 44) ⟨-(1/2), 10, 4⟩ = 0 := by
      simp only [RVec.dot]; norm_num
    have hd2 : RVec.dot (RVec.mk (-48:ℝ) (-20) 44) ⟨1, 0, 0⟩ = -48 := by
      simp only [RVec.dot]; norm_num
    have hd3 : RVec.dot (RVec.mk (-48:ℝ) (-20) 44) ⟨5, 5, 5⟩ = -120 := by
      simp only [RVec.dot]; norm_num
    have hd4 : RVec.dot (RVec.mk (-48:ℝ) (-20) 44) ⟨-2, 4, 4⟩ = 192 := by
      simp only [RVec.dot]; norm_num
    have hd5 : RVec.dot (RVec.mk (0:ℝ) (-31) 31) ⟨1, 0, 0⟩ = 0 := by
      simp only [RVec.dot]; norm_num
    have hd6 : RVec.dot (RVec.mk (0:ℝ) (-31) 31) ⟨-(1/2), 10, 4⟩ = -186 := by
      simp only [RVec.dot]; norm_num
    have hd7 : RVec.dot (RVec.mk (0:ℝ) (-31) 31) ⟨-(5/2), 6, 0⟩ = -186 := by
      simp only [RVec.dot]; norm_num
    have hd8 : RVec.dot (RVec.mk (0:ℝ) (-31) 31) ⟨9/2, -2, 4⟩ = 186 := by
      simp only [RVec.dot]; norm_num
    have hcross3 : RVec.cross (RVec.mk (0:ℝ) (-31) 31) (RVec.mk (-48) (-20) 44) =
        RVec.mk (-744) (-1488) (-1488) := by
      simp only [RVec.cross]
      norm_num
    have hunit : (RVec.mk (-744:ℝ) (-1488) (-1488)).unit =
        RVec.mk (-(1/3)) (-(2/3)) (-(2/3)) := by
      simp only [RVec.unit, RVec.length]
      rw [hsqrt]
      simp only [RVec.scale]
      norm_num
    have hO : intersectThreePlanes (RVec.mk (0:ℝ) (-31) 31) 0
        (RVec.mk (-48) (-20) 44) 0 (RVec.mk (-(1/3)) (-(2/3)) (-(2/3))) =
        RVec.mk 0 0 0 := by
      simp only [intersectThreePlanes, RVec.cross, RVec.scale, RVec.add, det3R]
      norm_num
    have hs1 : RVec.sub ⟨1, 0, 0⟩ (RVec.mk (0:ℝ) 0 0) = RVec.mk 1 0 0 := by
      simp only [RVec.sub]; norm_num
    have hs2 : RVec.sub ⟨5, 5, 5⟩ (RVec.mk (0:ℝ) 0 0) = RVec.mk 5 5 5 := by
      simp only [RVec.sub]; norm_num
    have hs3 : RVec.sub ⟨-2, 4, 4⟩ (RVec.mk (0:ℝ) 0 0) = RVec.mk (-2) 4 4 := by
      simp only [RVec.sub]; norm_num
    have hs4 : RVec.sub ⟨-(1/2), 10, 4⟩ (RVec.mk (0:ℝ) 0 0) =
        RVec.mk (-(1/2)) 10 4 := by
      simp only [RVec.sub]; norm_num
    have hs5 : RVec.sub ⟨-(5/2), 6, 0⟩ (RVec.mk (0:ℝ) 0 0) =
        RVec.mk (-(5/2)) 6 0 := by
      simp only [RVec.sub]; norm_num
    have hs6 : RVec.sub ⟨9/2, -2, 4⟩ (RVec.mk (0:ℝ) 0 0) =
        RVec.mk (9/2) (-2) 4 := by
      simp only [RVec.sub]; norm_num
    have hp1 : RVec.dot (RVec.mk (-(1/3):ℝ) (-(2/3)) (-(2/3))) (RVec.mk 1 0 0) =
        -(1/3) := by
      simp only [RVec.dot]; norm_num
    have hp2 : RVec.dot (RVec.mk (-(1/3):ℝ) (-(2/3)) (-(2/3))) (RVec.mk 5 5 5) =
        -(25/3) := by
      simp only [RVec.dot]; norm_num
    have hp3 : RVec.dot (RVec.mk (-(1/3):ℝ) (-(2/3)) (-(2/3))) (RVec.mk (-2) 4 4) =
        -(14/3) := by
      simp only [RVec.dot]; norm_num
    have hp4 : RVec.dot (RVec.mk (-(1/3):ℝ) (-(2/3)) (-(2/3)))
        (RVec.mk (-(1/2)) 10 4) = -(55/6) := by
      simp only [RVec.dot]; norm_num
    have hp5 : RVec.dot (RVec.mk (-(1/3):ℝ) (-(2/3)) (-(2/3)))
        (RVec.mk (-(5/2)) 6 0) = -(19/6) := by
      simp only [RVec.dot]; norm_num
    have hp6 : RVec.dot (RVec.mk (-(1/3):ℝ) (-(2/3)) (-(2/3)))
        (RVec.mk (9/2) (-2) 4) = -(17/6) := by
      simp only [RVec.dot]; norm_num
    have e48n : |(-48:ℝ)| = 48 := by
      rw [abs_of_neg (by norm_num : (-48:ℝ) < 0)]; norm_num
    have e120n : |(-120:ℝ)| = 120 := by
      rw [abs_of_neg (by norm_num : (-120:ℝ) < 0)]; norm_num
    have e186n : |(-186:ℝ)| = 186 := by
      rw [abs_of_neg (by norm_num : (-186:ℝ) < 0)]; norm_num
    have hsgn48n : signEpsR (1/10^8) (-48:ℝ) = -1 := by
      simp only [signEpsR, e48n, signR]
      norm_num
    have hsgn120n : signEpsR (1/10^8) (-120:ℝ) = -1 := by
      simp only [signEpsR, e120n, signR]
      norm_num
    have hint1 : mollerInterval (1/10^8) (-48) (-120) 192
        (-(1/3)) (-(25/3)) (-(14/3)) = ((-(6/5) : ℝ), (-(90/13) : ℝ)) := by
      rw [mollerInterval, if_pos (by rw [hsgn48n, hsgn120n])]
      norm_num
    have hint2 : mollerInterval (1/10^8) (-186) (-186) 186
        (-(55/6)) (-(19/6)) (-(17/6)) = ((-(6) : ℝ), (-(3) : ℝ)) := by
      rw [mollerInterval, if_pos rfl]
      norm_num
    have habs65 : |(-(6/5):ℝ)| = 6/5 := by
      rw [abs_of_neg (by norm_num : (-(6/5):ℝ) < 0)]; norm_num
    have habs9013 : |(-(90/13):ℝ)| = 90/13 := by
      rw [abs_of_neg (by norm_num : (-(90/13):ℝ) < 0)]; norm_num
    have habs6 : |(-(6):ℝ)| = 6 := by
      rw [abs_of_neg (by norm_num : (-(6):ℝ) < 0)]; norm_num
    have habs3 : |(-(3):ℝ)| = 3 := by
      rw [abs_of_neg (by norm_num : (-(3):ℝ) < 0)]; norm_num
    have hsort1 : sortPairR ((-(6/5) : ℝ), (-(90/13) : ℝ)) =
        ((-(6/5) : ℝ), (-(90/13) : ℝ)) := by
      rw [sortPairR, if_pos (by constructor <;> norm_num),
        if_pos (by simp only []; rw [habs65, habs9013]; norm_num)]
    have hsort2 : sortPairR ((-(6) : ℝ), (-(3) : ℝ)) = ((-(3) : ℝ), (-(6) : ℝ)) := by
      rw [sortPairR, if_pos (by constructor <;> norm_num),
        if_neg (by simp only []; rw [habs6, habs3]; norm_num)]
    have hc1 : ¬(((|(-48:ℝ)| > 1/10^8 ∧ |(-120:ℝ)| > 1/10^8 ∧ |(192:ℝ)| > 1/10^8) ∧
        signR (-48) = signR (-120) ∧ signR (-48) = signR 192)) := by
      intro h
      have := h.2.2
      simp only [signR] at this
      norm_num at this
    have hc2 : ¬(((|(-186:ℝ)| > 1/10^8 ∧ |(-186:ℝ)| > 1/10^8 ∧ |(186:ℝ)| > 1/10^8) ∧
        True ∧ signR (-186) = signR 186)) := by
      intro h
      have := h.2.2
      simp only [signR] at this
      norm_num at this
    have hc3 : ¬(((|(-48:ℝ)| < 1/10^8 ∧ |(-120:ℝ)| < 1/10^8 ∧ |(192:ℝ)| < 1/10^8) ∧
        (|(-186:ℝ)| < 1/10^8 ∧ |(-186:ℝ)| < 1/10^8 ∧ |(186:ℝ)| < 1/10^8))) := by
      intro h
      have := h.1.1
      rw [e48n] at this
      norm_num at this
    simp only [intersectTri, hN2, hN1]
    simp only [hd1, hd2, hd3, hd4, hd5, hd6, hd7, hd8, neg_zero, add_zero, hcross3]
    rw [if_neg hc1, if_neg hc2, if_neg hc3]
    simp only [hunit, hO, hs1, hs2, hs3, hs4, hs5, hs6, hp1, hp2, hp3, hp4, hp5, hp6]
    simp only [hint1, hint2, hsort1, hsort2]
    rw [show max ((-(6/5) : ℝ), (-(90/13) : ℝ)).1 ((-(3) : ℝ), (-(6) : ℝ)).1 = -(6/5) by
        norm_num,
      show min ((-(6/5) : ℝ), (-(90/13) : ℝ)).2 ((-(3) : ℝ), (-(6) : ℝ)).2 = -(90/13) by
        norm_num]
    rw [if_neg (by norm_num : ¬((-(90/13) : ℝ) - -(6/5) > 1/10^8)),
      if_neg (by norm_num : ¬((-(6/5) : ℝ) - -(90/13) < 1/10^8))]
